import Mathlib

/-!
Shallow embedding of the GridWorld environment from
src/trial_04_custom_env.py (class GridWorldEnv).

The environment is a size × size grid.  Mutable state is the pair of
positions _agent_location and _target_location (numpy int arrays of
shape 2, embedded as a pair of Int) plus the numpy random generator
np_random (embedded as an abstract deterministic stream state).
Python exceptions are embedded as Option-valued results; the
potentially non-terminating rejection-sampling loop of reset is
embedded with explicit fuel.
-/

namespace GridWorld

/-- A grid position: a length-2 integer vector (x, y), as stored in the
numpy arrays _agent_location and _target_location. -/
structure Pos where
  x : Int
  y : Int
deriving DecidableEq, Repr

/-- State of the environment random source self.np_random.  numpy's
PCG64 bit generator is external library code; its contract (a
deterministic stream fully determined by the seed) is embedded as a
single evolving Nat state. -/
abbrev Rng := Nat

/-- One raw draw from the random source: a linear-congruential update
standing in for the external PCG64 stream (any deterministic stream
satisfies the contract the code relies on). -/
def rngNext (r : Rng) : Nat × Rng :=
  let s := (r * 1103515245 + 12345) % 2147483648
  (s / 65536, s)

/-- Seeding of self.np_random by super().reset(seed=seed): the
resulting generator state is a function of the seed alone. -/
def mkRng (seed : Nat) : Rng := seed

/-- np_random.integers(0, n): a uniform integer in [0, n).  numpy
raises ValueError when the range is empty (n ≤ 0), embedded as none;
otherwise the draw is the raw stream value reduced mod n. -/
def randBelow (n : Int) (r : Rng) : Option (Int × Rng) :=
  if n ≤ 0 then none
  else
    let v := (rngNext r).1
    some ((v : Int) % n, (rngNext r).2)

/-- The whole mutable state of a GridWorldEnv instance:
self.size, self._agent_location, self._target_location, self.np_random. -/
structure GridWorldEnv where
  size : Int
  agent : Pos
  target : Pos
  rng : Rng
deriving DecidableEq, Repr

/-- GridWorldEnv.__init__(size): stores size and initialises both
locations to the sentinel (-1, -1).  The source performs no validation
of size and no randomness at construction. -/
def init (size : Int) : GridWorldEnv :=
  { size := size
    agent := ⟨-1, -1⟩
    target := ⟨-1, -1⟩
    rng := mkRng 0 }

/-- The observation dictionary returned by _get_obs:
keys "agent" and "target". -/
structure Obs where
  agent : Pos
  target : Pos
deriving DecidableEq, Repr

/-- GridWorldEnv._get_obs. -/
def getObs (env : GridWorldEnv) : Obs :=
  { agent := env.agent, target := env.target }

/-- GridWorldEnv._get_info: the value under key "distance",
np.linalg.norm(_agent_location - _target_location, ord=1), i.e. the L1
norm |dx| + |dy| of the integer difference vector (exact in floating
point at these magnitudes, embedded as Int). -/
def getInfo (env : GridWorldEnv) : Int :=
  |env.agent.x - env.target.x| + |env.agent.y - env.target.y|

/-- The Manhattan (L1) distance as the spec words it: sum of absolute
coordinate differences between agent and target. -/
def manhattanSpec (a t : Pos) : Int :=
  |a.x - t.x| + |a.y - t.y|

/-- The rejection-sampling loop of reset (lines 84-88): starting from
target = agent, resample target while it coincides with agent.  The
while loop is embedded with explicit fuel; none means the fuel ran out
(or the sampling range was empty). -/
def sampleTarget (size : Int) (agent : Pos) : Nat → Rng → Option (Pos × Rng)
  | 0, _ => none
  | fuel + 1, r =>
    match randBelow size r with
    | none => none
    | some (tx, r1) =>
      match randBelow size r1 with
      | none => none
      | some (ty, r2) =>
        if (⟨tx, ty⟩ : Pos) = agent then sampleTarget size agent fuel r2
        else some (⟨tx, ty⟩, r2)

/-- The sampling core of reset: draw agent uniformly from
[0, size-1]^2, then draw target by rejection until distinct.
Returns (agent, target, final rng state). -/
def resetCore (size : Int) (fuel : Nat) (r0 : Rng) : Option (Pos × Pos × Rng) :=
  match randBelow size r0 with
  | none => none
  | some (ax, r1) =>
    match randBelow size r1 with
    | none => none
    | some (ay, r2) =>
      match sampleTarget size ⟨ax, ay⟩ fuel r2 with
      | none => none
      | some (target, r3) => some (⟨ax, ay⟩, target, r3)

/-- The random-source state right after super().reset(seed=seed):
reseeded from the seed when one is given, otherwise unchanged. -/
def seedRng (env : GridWorldEnv) (seed : Option Nat) : Rng :=
  match seed with
  | some s => mkRng s
  | none => env.rng

/-- GridWorldEnv.reset(seed, options): super().reset(seed=seed)
reseeds np_random from the seed when one is given, otherwise the
current generator state is kept; then both locations are sampled and
the new observation and info (the "distance" value) are returned.
options has no effect and is omitted. -/
def reset (env : GridWorldEnv) (seed : Option Nat) (fuel : Nat) :
    Option (GridWorldEnv × Obs × Int) :=
  match resetCore env.size fuel (seedRng env seed) with
  | none => none
  | some (agent, target, r3) =>
    let env2 : GridWorldEnv :=
      { env with agent := agent, target := target, rng := r3 }
    some (env2, getObs env2, getInfo env2)

/-- The lookup table self._action_to_direction: a dict with keys
0, 1, 2, 3; any other key has no entry (a lookup raises KeyError,
embedded as none). -/
def actionToDirection (a : Int) : Option Pos :=
  if a = 0 then some ⟨1, 0⟩
  else if a = 1 then some ⟨0, 1⟩
  else if a = 2 then some ⟨-1, 0⟩
  else if a = 3 then some ⟨0, -1⟩
  else none

/-- np.clip(v, lo, hi) on one coordinate: the maximum with lo is
applied first, then the minimum with hi. -/
def clip (v lo hi : Int) : Int :=
  min hi (max lo v)

/-- The 5-tuple returned by step (observation, reward, terminated,
truncated, info): reward is the Python int 1 or 0, and distance is the
info dictionary's "distance" value. -/
structure StepResult where
  obs : Obs
  reward : Int
  terminated : Bool
  truncated : Bool
  distance : Int
deriving DecidableEq, Repr

/-- GridWorldEnv.step(action).  The direction lookup happens before
any assignment, so a KeyError (invalid action, embedded as a none
result) leaves the state untouched; the returned pair is (state after
the call, optional returned 5-tuple).  On a valid action the agent
moves by the direction vector, each coordinate clipped to
[0, size-1]; terminated is componentwise equality of the post-move
agent with the target (np.array_equal); truncated is False; reward is
1 if terminated else 0. -/
def step (env : GridWorldEnv) (a : Int) : GridWorldEnv × Option StepResult :=
  match actionToDirection a with
  | none => (env, none)
  | some d =>
    let agent2 : Pos :=
      ⟨clip (env.agent.x + d.x) 0 (env.size - 1),
       clip (env.agent.y + d.y) 0 (env.size - 1)⟩
    let env2 : GridWorldEnv := { env with agent := agent2 }
    let terminated : Bool := decide (agent2 = env.target)
    (env2,
      some { obs := getObs env2
             reward := if terminated then 1 else 0
             terminated := terminated
             truncated := false
             distance := getInfo env2 })

/-- Run a finite sequence of step calls; a raised KeyError (invalid
action) aborts the episode with none. -/
def runSteps (env : GridWorldEnv) : List Int → Option GridWorldEnv
  | [] => some env
  | a :: rest =>
    match step env a with
    | (_, none) => none
    | (env2, some _) => runSteps env2 rest

/-- A position lies inside the grid: both coordinates in [0, size-1]. -/
def posInBounds (p : Pos) (size : Int) : Prop :=
  0 ≤ p.x ∧ p.x ≤ size - 1 ∧ 0 ≤ p.y ∧ p.y ≤ size - 1

instance (p : Pos) (size : Int) : Decidable (posInBounds p size) := by
  unfold posInBounds; infer_instance

/-- Both stored positions lie inside the grid. -/
def inBounds (env : GridWorldEnv) : Prop :=
  posInBounds env.agent env.size ∧ posInBounds env.target env.size

instance (env : GridWorldEnv) : Decidable (inBounds env) := by
  unfold inBounds; infer_instance

/-- Concrete state produced by reset (init 5) (some 0) with fuel 20. -/
def envAfterReset : GridWorldEnv :=
  { size := 5, agent := ⟨0, 3⟩, target := ⟨3, 2⟩, rng := 1449466924 }

/-- Concrete observation produced by reset (init 5) (some 0). -/
def obsAfterReset : Obs :=
  { agent := ⟨0, 3⟩, target := ⟨3, 2⟩ }

/-- A second environment, with a different prior state but the same
size, used to exercise seed determinism. -/
def otherEnv : GridWorldEnv :=
  { size := 5, agent := ⟨2, 2⟩, target := ⟨4, 4⟩, rng := 999 }

/-- Concrete state produced by stepping a fresh (never reset) size-5
environment with action 0. -/
def envAfterStep0 : GridWorldEnv :=
  { size := 5, agent := ⟨0, 0⟩, target := ⟨-1, -1⟩, rng := 0 }

/-- Concrete 5-tuple returned by stepping a fresh size-5 environment
with action 0. -/
def stepRes0 : StepResult :=
  { obs := { agent := ⟨0, 0⟩, target := ⟨-1, -1⟩ }
    reward := 0
    terminated := false
    truncated := false
    distance := 2 }

/-- A concrete post-reset-shaped state with the agent in the corner. -/
def cornerEnv : GridWorldEnv :=
  { size := 5, agent := ⟨0, 0⟩, target := ⟨3, 3⟩, rng := 0 }

/-- Concrete state after running actions [0, 0, 1] from envAfterReset. -/
def envAfterSteps : GridWorldEnv :=
  { size := 5, agent := ⟨2, 4⟩, target := ⟨3, 2⟩, rng := 1449466924 }

/-! Helper lemmas about the embedded operations. -/

theorem pos_eq_iff (p q : Pos) : p = q ↔ p.x = q.x ∧ p.y = q.y := by
  cases p; cases q; simp

theorem clip_mem {v lo hi : Int} (h : lo ≤ hi) :
    lo ≤ clip v lo hi ∧ clip v lo hi ≤ hi :=
  ⟨le_min h (le_max_left lo v), min_le_left hi _⟩

theorem randBelow_bounds {n : Int} {r : Rng} {v : Int} {r2 : Rng}
    (h : randBelow n r = some (v, r2)) : 0 < n ∧ 0 ≤ v ∧ v ≤ n - 1 := by
  unfold randBelow at h
  split at h
  · exact absurd h (by simp)
  · next hn =>
    simp only [Option.some.injEq, Prod.mk.injEq] at h
    obtain ⟨rfl, rfl⟩ := h
    have hpos : 0 < n := by omega
    refine ⟨hpos, Int.emod_nonneg _ (by omega), ?_⟩
    have := Int.emod_lt_of_pos (((rngNext r).1 : Nat) : Int) hpos
    omega

theorem sampleTarget_spec (size : Int) (agent : Pos) :
    ∀ (fuel : Nat) (r : Rng) (t : Pos) (r2 : Rng),
      sampleTarget size agent fuel r = some (t, r2) →
      t ≠ agent ∧ posInBounds t size := by
  intro fuel
  induction fuel with
  | zero =>
    intro r t r2 h
    exact absurd h (by simp [sampleTarget])
  | succ n ih =>
    intro r t r2 h
    unfold sampleTarget at h
    split at h
    · exact absurd h (by simp)
    · rename_i tx r1 h1
      split at h
      · exact absurd h (by simp)
      · rename_i ty rr h2
        split at h
        · exact ih rr t r2 h
        · rename_i hne
          simp only [Option.some.injEq, Prod.mk.injEq] at h
          obtain ⟨rfl, rfl⟩ := h
          have hx := randBelow_bounds h1
          have hy := randBelow_bounds h2
          exact ⟨hne, hx.2.1, hx.2.2, hy.2.1, hy.2.2⟩

theorem resetCore_spec (size : Int) (fuel : Nat) (r0 : Rng) (a t : Pos) (r3 : Rng)
    (h : resetCore size fuel r0 = some (a, t, r3)) :
    t ≠ a ∧ posInBounds a size ∧ posInBounds t size := by
  unfold resetCore at h
  split at h
  · exact absurd h (by simp)
  · rename_i ax r1 h1
    split at h
    · exact absurd h (by simp)
    · rename_i ay r2 h2
      split at h
      · exact absurd h (by simp)
      · rename_i tt rr h3
        simp only [Option.some.injEq, Prod.mk.injEq] at h
        obtain ⟨rfl, rfl, rfl⟩ := h
        have hs := sampleTarget_spec size ⟨ax, ay⟩ fuel r2 _ _ h3
        have hx := randBelow_bounds h1
        have hy := randBelow_bounds h2
        exact ⟨hs.1, ⟨hx.2.1, hx.2.2, hy.2.1, hy.2.2⟩, hs.2⟩

theorem reset_elim (env : GridWorldEnv) (seed : Option Nat) (fuel : Nat)
    (env2 : GridWorldEnv) (obs : Obs) (d : Int)
    (h : reset env seed fuel = some (env2, obs, d)) :
    ∃ (a t : Pos) (r3 : Rng),
      resetCore env.size fuel (seedRng env seed) = some (a, t, r3) ∧
      env2 = { env with agent := a, target := t, rng := r3 } ∧
      obs = getObs env2 ∧ d = getInfo env2 := by
  unfold reset at h
  split at h
  · exact absurd h (by simp)
  · rename_i a t r3 hc
    simp only [Option.some.injEq, Prod.mk.injEq] at h
    obtain ⟨rfl, rfl, rfl⟩ := h
    exact ⟨a, t, r3, hc, rfl, rfl, rfl⟩

theorem step_some_elim (env : GridWorldEnv) (a : Int) (env2 : GridWorldEnv)
    (res : StepResult) (hsize : 1 ≤ env.size)
    (h : step env a = (env2, some res)) :
    posInBounds env2.agent env.size ∧ env2.target = env.target ∧
      env2.size = env.size := by
  unfold step at h
  split at h
  · exact absurd h (by simp)
  · rename_i d hd
    simp only [Prod.mk.injEq, Option.some.injEq] at h
    obtain ⟨rfl, rfl⟩ := h
    have h01 : (0 : Int) ≤ env.size - 1 := by omega
    have hx := @clip_mem (env.agent.x + d.x) 0 (env.size - 1) h01
    have hy := @clip_mem (env.agent.y + d.y) 0 (env.size - 1) h01
    exact ⟨⟨hx.1, hx.2, hy.1, hy.2⟩, rfl, rfl⟩

theorem step_result_spec (env : GridWorldEnv) (a : Int) (env2 : GridWorldEnv)
    (res : StepResult) (h : step env a = (env2, some res)) :
    res.terminated = decide (env2.agent = env2.target)
    ∧ res.reward = (if res.terminated then 1 else 0)
    ∧ res.truncated = false
    ∧ res.obs = getObs env2
    ∧ res.distance = getInfo env2
    ∧ env2.target = env.target
    ∧ env2.size = env.size := by
  unfold step at h
  split at h
  · exact absurd h (by simp)
  · rename_i d hd
    simp only [Prod.mk.injEq, Option.some.injEq] at h
    obtain ⟨rfl, rfl⟩ := h
    exact ⟨rfl, rfl, rfl, rfl, rfl, rfl, rfl⟩

theorem runSteps_inBounds (acts : List Int) :
    ∀ (env : GridWorldEnv), 1 ≤ env.size → inBounds env →
      ∀ (env2 : GridWorldEnv), runSteps env acts = some env2 → inBounds env2 := by
  induction acts with
  | nil =>
    intro env hs hb env2 h
    simp only [runSteps, Option.some.injEq] at h
    exact h ▸ hb
  | cons a rest ih =>
    intro env hs hb env2 h
    unfold runSteps at h
    split at h
    · exact absurd h (by simp)
    · rename_i envA resA hstep
      have hp := step_some_elim env a envA resA hs hstep
      have hbA : inBounds envA := by
        refine ⟨?_, ?_⟩
        · rw [hp.2.2]
          exact hp.1
        · rw [hp.2.1, hp.2.2]
          exact hb.2
      have hsA : 1 ≤ envA.size := by rw [hp.2.2]; exact hs
      exact ih envA hsA hbA env2 h

/-- Claim C1: for every state and every action in 0..3, step returns
terminated = true exactly when the post-move agent location equals the
target location componentwise, reward 1 when terminated and 0
otherwise, and truncated = false on every call. -/
theorem step_flags (env : GridWorldEnv) (a : Int)
    (ha : a = 0 ∨ a = 1 ∨ a = 2 ∨ a = 3)
    (env2 : GridWorldEnv) (res : StepResult)
    (h : step env a = (env2, some res)) :
    (res.terminated = true ↔
      (env2.agent.x = env2.target.x ∧ env2.agent.y = env2.target.y))
    ∧ (res.terminated = true → res.reward = 1)
    ∧ (res.terminated = false → res.reward = 0)
    ∧ res.truncated = false := by
  have hs := step_result_spec env a env2 res h
  refine ⟨?_, ?_, ?_, hs.2.2.1⟩
  · rw [hs.1]
    simp only [decide_eq_true_eq]
    exact pos_eq_iff _ _
  · intro ht
    rw [hs.2.1, ht]
    rfl
  · intro ht
    rw [hs.2.1, ht]
    rfl

theorem step_flags_witness :
    (stepRes0.terminated = true ↔
      (envAfterStep0.agent.x = envAfterStep0.target.x ∧
       envAfterStep0.agent.y = envAfterStep0.target.y))
    ∧ (stepRes0.terminated = true → stepRes0.reward = 1)
    ∧ (stepRes0.terminated = false → stepRes0.reward = 0)
    ∧ stepRes0.truncated = false :=
  step_flags (init 5) 0 (by decide) envAfterStep0 stepRes0 (by decide)

/-- Claim C2: for every state and every action in 0..3, step moves the
agent to the componentwise clip of agent + direction into [0, size-1],
with the direction map 0 to (1,0), 1 to (0,1), 2 to (-1,0),
3 to (0,-1); in particular from (0,0) actions 2 and 3 leave the agent
in place (the size hypothesis holds in every post-reset state). -/
theorem step_clip_move (env : GridWorldEnv) (a : Int)
    (ha : a = 0 ∨ a = 1 ∨ a = 2 ∨ a = 3) (hsize : 1 ≤ env.size) :
    (∃ d : Pos, actionToDirection a = some d ∧
        (step env a).1.agent =
          ⟨clip (env.agent.x + d.x) 0 (env.size - 1),
           clip (env.agent.y + d.y) 0 (env.size - 1)⟩)
    ∧ ((a = 2 ∨ a = 3) → env.agent = ⟨0, 0⟩ →
        (step env a).1.agent = env.agent) := by
  have hx0 : ∀ p : Pos, p = ⟨0, 0⟩ → p.x = 0 ∧ p.y = 0 := by
    intro p hp; rw [hp]; exact ⟨rfl, rfl⟩
  rcases ha with rfl | rfl | rfl | rfl
  · refine ⟨⟨⟨1, 0⟩, rfl, rfl⟩, ?_⟩
    rintro (h | h) <;> exact absurd h (by decide)
  · refine ⟨⟨⟨0, 1⟩, rfl, rfl⟩, ?_⟩
    rintro (h | h) <;> exact absurd h (by decide)
  · refine ⟨⟨⟨-1, 0⟩, rfl, rfl⟩, ?_⟩
    intro _ hagent
    obtain ⟨hx, hy⟩ := hx0 env.agent hagent
    show (⟨clip (env.agent.x + -1) 0 (env.size - 1),
          clip (env.agent.y + 0) 0 (env.size - 1)⟩ : Pos) = env.agent
    rw [pos_eq_iff]
    simp only [clip, hx, hy]
    constructor <;> omega
  · refine ⟨⟨⟨0, -1⟩, rfl, rfl⟩, ?_⟩
    intro _ hagent
    obtain ⟨hx, hy⟩ := hx0 env.agent hagent
    show (⟨clip (env.agent.x + 0) 0 (env.size - 1),
          clip (env.agent.y + -1) 0 (env.size - 1)⟩ : Pos) = env.agent
    rw [pos_eq_iff]
    simp only [clip, hx, hy]
    constructor <;> omega

theorem step_clip_move_witness :
    (∃ d : Pos, actionToDirection 2 = some d ∧
        (step cornerEnv 2).1.agent =
          ⟨clip (cornerEnv.agent.x + d.x) 0 (cornerEnv.size - 1),
           clip (cornerEnv.agent.y + d.y) 0 (cornerEnv.size - 1)⟩)
    ∧ (((2 : Int) = 2 ∨ (2 : Int) = 3) → cornerEnv.agent = ⟨0, 0⟩ →
        (step cornerEnv 2).1.agent = cornerEnv.agent) :=
  step_clip_move cornerEnv 2 (by decide) (by decide)

/-- Claim C3: for grids of side at least 2, every successful reset
leaves the agent and the target at distinct positions. -/
theorem reset_noncoincidence (env : GridWorldEnv) (seed : Option Nat)
    (fuel : Nat) (hsize : 2 ≤ env.size)
    (env2 : GridWorldEnv) (obs : Obs) (d : Int)
    (h : reset env seed fuel = some (env2, obs, d)) :
    env2.agent ≠ env2.target := by
  obtain ⟨a, t, r3, hc, rfl, -, -⟩ := reset_elim env seed fuel env2 obs d h
  have hcs := resetCore_spec env.size fuel (seedRng env seed) a t r3 hc
  exact fun he => hcs.1 he.symm

theorem reset_noncoincidence_witness :
    envAfterReset.agent ≠ envAfterReset.target :=
  reset_noncoincidence (init 5) (some 0) 20 (by decide)
    envAfterReset obsAfterReset 4 (by decide)

/-- Claim C5: step never mutates the target location, whatever the
state and the action; only reset changes it. -/
theorem step_target_unchanged (env : GridWorldEnv) (a : Int) :
    (step env a).1.target = env.target := by
  unfold step
  split
  · rfl
  · rfl

/-- Claim C4: after a successful reset on a grid of side at least 2,
both positions lie in [0, size-1] after the reset and in every state
reached by a finite sequence of valid actions (stated for every
prefix of the action sequence). -/
theorem bounds_invariant (env0 : GridWorldEnv) (seed : Option Nat) (fuel : Nat)
    (hsize : 2 ≤ env0.size)
    (env1 : GridWorldEnv) (obs : Obs) (d : Int)
    (hreset : reset env0 seed fuel = some (env1, obs, d))
    (acts : List Int)
    (hvalid : ∀ b ∈ acts, b = 0 ∨ b = 1 ∨ b = 2 ∨ b = 3) :
    inBounds env1 ∧
      ∀ (n : Nat) (env2 : GridWorldEnv),
        runSteps env1 (List.take n acts) = some env2 → inBounds env2 := by
  obtain ⟨a, t, r3, hc, rfl, -, -⟩ := reset_elim env0 seed fuel env1 obs d hreset
  have hcs := resetCore_spec env0.size fuel (seedRng env0 seed) a t r3 hc
  have hb1 : inBounds { env0 with agent := a, target := t, rng := r3 } :=
    ⟨hcs.2.1, hcs.2.2⟩
  have hs1 : (1 : Int) ≤
      ({ env0 with agent := a, target := t, rng := r3 } : GridWorldEnv).size := by
    show (1 : Int) ≤ env0.size
    omega
  exact ⟨hb1, fun n env2 h =>
    runSteps_inBounds (List.take n acts) _ hs1 hb1 env2 h⟩

theorem bounds_invariant_witness :
    inBounds envAfterReset ∧ inBounds envAfterSteps := by
  have h := bounds_invariant (init 5) (some 0) 20 (by decide)
    envAfterReset obsAfterReset 4 (by decide) [0, 0, 1] (by decide)
  exact ⟨h.1, h.2 3 envAfterSteps (by decide)⟩

/-- Claim C6: reset is deterministic in the seed: with the same
integer seed, resets of two same-size environments in arbitrary prior
states produce identical agent and target locations. -/
theorem reset_seed_deterministic (e1 e2 : GridWorldEnv) (s : Nat) (fuel : Nat)
    (hsize : e1.size = e2.size)
    (p1 p2 : GridWorldEnv × Obs × Int)
    (h1 : reset e1 (some s) fuel = some p1)
    (h2 : reset e2 (some s) fuel = some p2) :
    p1.1.agent = p2.1.agent ∧ p1.1.target = p2.1.target := by
  obtain ⟨q1, o1, d1⟩ := p1
  obtain ⟨q2, o2, d2⟩ := p2
  obtain ⟨a1, t1, r1, hc1, rfl, -, -⟩ := reset_elim e1 (some s) fuel q1 o1 d1 h1
  obtain ⟨a2, t2, r2, hc2, rfl, -, -⟩ := reset_elim e2 (some s) fuel q2 o2 d2 h2
  rw [hsize] at hc1
  rw [show seedRng e1 (some s) = seedRng e2 (some s) from rfl] at hc1
  rw [hc2] at hc1
  simp only [Option.some.injEq, Prod.mk.injEq] at hc1
  exact ⟨hc1.1.symm, hc1.2.1.symm⟩

theorem reset_seed_deterministic_witness :
    envAfterReset.agent = envAfterReset.agent ∧
      envAfterReset.target = envAfterReset.target :=
  reset_seed_deterministic (init 5) otherEnv 0 20 (by decide)
    (envAfterReset, obsAfterReset, 4) (envAfterReset, obsAfterReset, 4)
    (by decide) (by decide)

/-- Claim C7: every info value returned by reset or step equals the
exact Manhattan distance between the agent and target of the returned
observation, and is non-negative. -/
theorem info_distance_correct (env : GridWorldEnv) (seed : Option Nat)
    (fuel : Nat) (a : Int) :
    (∀ (env2 : GridWorldEnv) (obs : Obs) (d : Int),
        reset env seed fuel = some (env2, obs, d) →
        d = manhattanSpec obs.agent obs.target ∧ 0 ≤ d)
    ∧ (∀ res : StepResult, (step env a).2 = some res →
        res.distance = manhattanSpec res.obs.agent res.obs.target ∧
          0 ≤ res.distance) := by
  constructor
  · intro env2 obs d h
    obtain ⟨p, t, r3, hc, rfl, rfl, rfl⟩ := reset_elim env seed fuel env2 obs d h
    exact ⟨rfl, add_nonneg (abs_nonneg _) (abs_nonneg _)⟩
  · intro res h
    unfold step at h
    split at h
    · exact absurd h (by simp)
    · rename_i dir hd
      simp only [Option.some.injEq] at h
      subst h
      exact ⟨rfl, add_nonneg (abs_nonneg _) (abs_nonneg _)⟩

theorem info_distance_correct_witness :
    ((4 : Int) = manhattanSpec obsAfterReset.agent obsAfterReset.target ∧
      (0 : Int) ≤ 4)
    ∧ (stepRes0.distance = manhattanSpec stepRes0.obs.agent stepRes0.obs.target ∧
        0 ≤ stepRes0.distance) :=
  ⟨(info_distance_correct (init 5) (some 0) 20 0).1 envAfterReset
      obsAfterReset 4 (by decide),
   (info_distance_correct (init 5) (some 0) 20 0).2 stepRes0 (by decide)⟩

/-- Claim C8: for every action outside 0..3 the direction lookup has
no entry, so step fails (the lookup error occurs before any
assignment) and both stored locations are left unchanged. -/
theorem step_invalid_action (env : GridWorldEnv) (a : Int)
    (ha : ¬(a = 0 ∨ a = 1 ∨ a = 2 ∨ a = 3)) :
    step env a = (env, none) := by
  push_neg at ha
  unfold step actionToDirection
  simp [ha.1, ha.2.1, ha.2.2.1, ha.2.2.2]

theorem step_invalid_action_witness :
    step (init 5) 7 = (init 5, none) :=
  step_invalid_action (init 5) 7 (by decide)

/-- Counterexample to claim C9: constructing the environment with
size 1 succeeds, yielding the initialized state, so no
InvalidConfiguration failure occurs for size < 2. -/
theorem init_size_one_constructs :
    (init 1).size = 1 ∧ (init 1).agent = ⟨-1, -1⟩ ∧
      (init 1).target = ⟨-1, -1⟩ :=
  ⟨rfl, rfl, rfl⟩

/-- Claim C9 amended: construction performs no validation of size and
succeeds for every size (including every size below 2), storing the
given size and the sentinel positions (-1, -1). -/
theorem init_no_validation (size : Int) :
    (init size).size = size ∧ (init size).agent = ⟨-1, -1⟩ ∧
      (init size).target = ⟨-1, -1⟩ :=
  ⟨rfl, rfl, rfl⟩

/-- Counterexample to claim C10: step on a freshly constructed size-5
environment (never reset) with action 0 does not fail; it returns a
5-tuple computed from the sentinel positions. -/
theorem step_before_reset_no_failure :
    step (init 5) 0 = (envAfterStep0, some stepRes0) := by
  decide

/-- Claim C10 amended: step called before any reset does not fail for
actions 0..3; it operates on the sentinel positions, moving the agent
to the componentwise clip of (-1, -1) + direction into [0, size-1]. -/
theorem step_before_reset_computes (size : Int) (a : Int)
    (ha : a = 0 ∨ a = 1 ∨ a = 2 ∨ a = 3) :
    ∃ (d : Pos) (res : StepResult),
      actionToDirection a = some d ∧
      (step (init size) a).2 = some res ∧
      (step (init size) a).1.agent =
        ⟨clip (-1 + d.x) 0 (size - 1), clip (-1 + d.y) 0 (size - 1)⟩ := by
  rcases ha with rfl | rfl | rfl | rfl
  · exact ⟨⟨1, 0⟩, _, rfl, rfl, rfl⟩
  · exact ⟨⟨0, 1⟩, _, rfl, rfl, rfl⟩
  · exact ⟨⟨-1, 0⟩, _, rfl, rfl, rfl⟩
  · exact ⟨⟨0, -1⟩, _, rfl, rfl, rfl⟩

theorem step_before_reset_computes_witness :
    ∃ (d : Pos) (res : StepResult),
      actionToDirection 0 = some d ∧
      (step (init 5) 0).2 = some res ∧
      (step (init 5) 0).1.agent =
        ⟨clip (-1 + d.x) 0 (5 - 1), clip (-1 + d.y) 0 (5 - 1)⟩ :=
  step_before_reset_computes 5 0 (by decide)

end GridWorld
